import Mathlib

/-!
Verification of the solar-weather data pipeline in `solarWeather.py`.

The pipeline's floats are modelled as exact rationals (`ℚ`), Python
`datetime` values as the `PyDatetime` record below, and fallible code as
`Option` / `Except`.  Every definition mirrors the corresponding Python
function; the CPython standard-library helpers the program relies on
(`datetime.fromisoformat`, `datetime.isoformat`, `datetime.astimezone`,
`float(...)`, `"...".endswith`, `list.sort`) are modelled explicitly as
well so that the pipeline functions can be translated line by line.
-/

/-! ### Characters and digits -/

/-- Numeric value of an ASCII digit character, `none` for anything else. -/
def digitVal? (c : Char) : Option Nat :=
  if 48 ≤ c.toNat ∧ c.toNat ≤ 57 then some (c.toNat - 48) else none

/-- The ASCII digit character for `d < 10`. -/
def digitChar (d : Nat) : Char := Char.ofNat (48 + d)

/-- Two-character zero-padded decimal rendering (`%02d`) of `n < 100`. -/
def pad2ch (n : Nat) : List Char := [digitChar (n / 10), digitChar (n % 10)]

/-- Four-character zero-padded decimal rendering (`%04d`) of `n < 10000`. -/
def pad4ch (n : Nat) : List Char :=
  [digitChar (n / 1000), digitChar (n / 100 % 10), digitChar (n / 10 % 10), digitChar (n % 10)]

/-- Six-character zero-padded decimal rendering (`%06d`) of `n < 1000000`. -/
def pad6ch (n : Nat) : List Char :=
  [digitChar (n / 100000), digitChar (n / 10000 % 10), digitChar (n / 1000 % 10),
   digitChar (n / 100 % 10), digitChar (n / 10 % 10), digitChar (n % 10)]

/-- Read exactly two digit characters as a number. -/
def read2 : List Char → Option (Nat × List Char)
  | a :: b :: rest =>
    match digitVal? a, digitVal? b with
    | some x, some y => some (10 * x + y, rest)
    | _, _ => none
  | _ => none

/-- Read exactly four digit characters as a number. -/
def read4 : List Char → Option (Nat × List Char)
  | a :: b :: c :: d :: rest =>
    match digitVal? a, digitVal? b, digitVal? c, digitVal? d with
    | some x, some y, some z, some w => some (1000 * x + 100 * y + 10 * z + w, rest)
    | _, _, _, _ => none
  | _ => none

/-- Consume one expected character. -/
def expectCh (c : Char) : List Char → Option (List Char)
  | a :: rest => if a = c then some rest else none
  | [] => none

/-- Greedily read a run of digit characters. -/
def readDigitsAux : List Char → List Nat × List Char
  | [] => ([], [])
  | c :: rest =>
    match digitVal? c with
    | some d =>
      let p := readDigitsAux rest
      (d :: p.1, p.2)
    | none => ([], c :: rest)

/-- Value of a big-endian digit list. -/
def natFromDigits (ds : List Nat) : Nat := ds.foldl (fun a d => 10 * a + d) 0

/-! ### Calendar arithmetic (model of the `datetime` library) -/

/-- Gregorian leap-year test. -/
def isLeap (y : Nat) : Bool := (y % 4 = 0 && y % 100 ≠ 0) || y % 400 = 0

/-- Number of days in a month. -/
def daysInMonth (y m : Nat) : Nat :=
  if m = 2 then (if isLeap y then 29 else 28)
  else if m = 4 ∨ m = 6 ∨ m = 9 ∨ m = 11 then 30
  else 31

/-- Model of a CPython `datetime.datetime`: civil fields plus an optional
UTC offset in microseconds (`none` models a naive datetime). -/
structure PyDatetime where
  year : Nat
  month : Nat
  day : Nat
  hour : Nat
  minute : Nat
  second : Nat
  usec : Nat
  utcOffMicros : Option Int
deriving DecidableEq, Repr

/-- Field ranges enforced by the `datetime` constructor. -/
def validDT (t : PyDatetime) : Bool :=
  decide (1 ≤ t.year) && decide (t.year ≤ 9999) &&
  decide (1 ≤ t.month) && decide (t.month ≤ 12) &&
  decide (1 ≤ t.day) && decide (t.day ≤ daysInMonth t.year t.month) &&
  decide (t.hour ≤ 23) && decide (t.minute ≤ 59) && decide (t.second ≤ 59) &&
  decide (t.usec ≤ 999999) &&
  (match t.utcOffMicros with
   | none => true
   | some o => decide (o.natAbs < 86400000000))

/-- Successor day in the civil calendar. -/
def nextDay : Nat × Nat × Nat → Nat × Nat × Nat
  | (y, m, d) =>
    if d < daysInMonth y m then (y, m, d + 1)
    else if m < 12 then (y, m + 1, 1)
    else (y + 1, 1, 1)

/-- Predecessor day in the civil calendar. -/
def prevDay : Nat × Nat × Nat → Nat × Nat × Nat
  | (y, m, d) =>
    if 1 < d then (y, m, d - 1)
    else if 1 < m then (y, m - 1, daysInMonth y (m - 1))
    else (y - 1, 12, 31)

/-- Step a civil date forward by `n` days. -/
def addDaysFwd : Nat → Nat × Nat × Nat → Nat × Nat × Nat
  | 0, p => p
  | n + 1, p => addDaysFwd n (nextDay p)

/-- Step a civil date backward by `n` days. -/
def addDaysBwd : Nat → Nat × Nat × Nat → Nat × Nat × Nat
  | 0, p => p
  | n + 1, p => addDaysBwd n (prevDay p)

/-- Shift a civil date by an integer number of days. -/
def addDaysCivil (p : Nat × Nat × Nat) (q : Int) : Nat × Nat × Nat :=
  if 0 ≤ q then addDaysFwd q.toNat p else addDaysBwd (-q).toNat p

/-- Microseconds since midnight of the time-of-day part. -/
def secondsOfDayMicros (t : PyDatetime) : Nat :=
  (t.hour * 3600 + t.minute * 60 + t.second) * 1000000 + t.usec

/-- Shift a datetime by a signed number of microseconds, carrying into the
civil date.  This models CPython `datetime ± timedelta` arithmetic; the
time-zone field is carried along unchanged.  (Lean `Int` division and
remainder by a positive constant are floor-style, matching Python.) -/
def dtShiftMicros (t : PyDatetime) (delta : Int) : PyDatetime :=
  let total : Int := (secondsOfDayMicros t : Int) + delta
  let q : Int := total / 86400000000
  let r : Nat := (total % 86400000000).toNat
  let ymd := addDaysCivil (t.year, t.month, t.day) q
  { year := ymd.1, month := ymd.2.1, day := ymd.2.2,
    hour := r / 3600000000, minute := r / 60000000 % 60,
    second := r / 1000000 % 60, usec := r % 1000000,
    utcOffMicros := t.utcOffMicros }

/-- Days between a civil date and 1970-01-01 (Howard Hinnant's
`days_from_civil` algorithm, used here only as a strictly monotone
encoding of civil dates for comparisons). -/
def daysFromCivil (Y M D : Nat) : Int :=
  let y : Int := (Y : Int) - (if M ≤ 2 then 1 else 0)
  let era : Int := y.fdiv 400
  let yoe : Int := y - era * 400
  let mp : Int := ((M : Int) + 9) % 12
  let doy : Int := (153 * mp + 2) / 5 + (D : Int) - 1
  let doe : Int := yoe * 365 + yoe / 4 - yoe / 100 + doy
  era * 146097 + doe - 719468

/-- Microseconds between the civil fields of a datetime and the epoch. -/
def epochMicros (t : PyDatetime) : Int :=
  daysFromCivil t.year t.month t.day * 86400000000 + (secondsOfDayMicros t : Int)

/-- The instant a (possibly offset-carrying) datetime denotes; aware
Python datetimes compare by this value. -/
def dtInstant (t : PyDatetime) : Int :=
  epochMicros t - (t.utcOffMicros.getD 0)

/-! ### `isoformat` (rendering) -/

/-- Model of the `±HH:MM[:SS]` offset suffix `datetime.isoformat` appends
to an aware datetime. -/
def offsetSuffix : Option Int → List Char
  | none => []
  | some off =>
    let a := off.natAbs
    let totalMin := a / 60000000
    let ss := a / 1000000 % 60
    (if off < 0 then '-' else '+') ::
      (pad2ch (totalMin / 60) ++ ':' :: pad2ch (totalMin % 60) ++
        (if ss = 0 then [] else ':' :: pad2ch ss))

/-- Character-list version of `datetime.isoformat`: date, `T`, time,
microseconds only when non-zero, then the offset suffix when aware. -/
def isoformatCh (t : PyDatetime) : List Char :=
  pad4ch t.year ++ '-' :: pad2ch t.month ++ '-' :: pad2ch t.day ++
    'T' :: pad2ch t.hour ++ ':' :: pad2ch t.minute ++ ':' :: pad2ch t.second ++
    (if t.usec = 0 then [] else '.' :: pad6ch t.usec) ++
    offsetSuffix t.utcOffMicros

/-- Model of `datetime.isoformat`. -/
def isoformat (t : PyDatetime) : String := String.mk (isoformatCh t)

/-! ### `fromisoformat` (parsing) -/

/-- Validate parsed fields through the `datetime` constructor ranges. -/
def buildDT (y mo d h mi s us : Nat) (off : Option Int) : Option PyDatetime :=
  let t : PyDatetime := ⟨y, mo, d, h, mi, s, us, off⟩
  if validDT t then some t else none

/-- Parse the fractional-second part after the dot: one to six digits,
scaled to microseconds. -/
def readFracPart (cs : List Char) : Option (Nat × List Char) :=
  let p := readDigitsAux cs
  if p.1.isEmpty then none
  else if 6 < p.1.length then none
  else some (natFromDigits p.1 * 10 ^ (6 - p.1.length), p.2)

/-- Parse the trailing UTC-offset part (`±HH:MM` or `±HH:MM:SS`), or the
end of the string for a naive datetime, then build the result. -/
def readOffsetEnd (y mo d h mi s us : Nat) (cs : List Char) : Option PyDatetime :=
  match cs with
  | [] => buildDT y mo d h mi s us none
  | c :: cs =>
    let sgn : Int := if c = '+' then 1 else if c = '-' then -1 else 0
    if sgn = 0 then none
    else
      match read2 cs with
      | none => none
      | some (oh, cs) =>
        match expectCh ':' cs with
        | none => none
        | some cs =>
          match read2 cs with
          | none => none
          | some (om, cs) =>
            match cs with
            | [] => buildDT y mo d h mi s us (some (sgn * (((oh * 60 + om) * 60 : Nat) : Int) * 1000000))
            | _ =>
              match expectCh ':' cs with
              | none => none
              | some cs2 =>
                match read2 cs2 with
                | none => none
                | some (os, cs3) =>
                  if cs3.isEmpty then
                    buildDT y mo d h mi s us (some (sgn * ((((oh * 60 + om) * 60 + os : Nat)) : Int) * 1000000))
                  else none

/-- Parse the time part after the separator: `HH[:MM[:SS[.ffffff]]]`
followed by the optional offset. -/
def readTimePart (y mo d : Nat) (cs : List Char) : Option PyDatetime :=
  match read2 cs with
  | none => none
  | some (h, cs) =>
    match expectCh ':' cs with
    | none => readOffsetEnd y mo d h 0 0 0 cs
    | some cs =>
      match read2 cs with
      | none => none
      | some (mi, cs) =>
        match expectCh ':' cs with
        | none => readOffsetEnd y mo d h mi 0 0 cs
        | some cs =>
          match read2 cs with
          | none => none
          | some (s, cs) =>
            match expectCh '.' cs with
            | none => readOffsetEnd y mo d h mi s 0 cs
            | some cs2 =>
              match readFracPart cs2 with
              | none => none
              | some (us, cs3) => readOffsetEnd y mo d h mi s us cs3

/-- Model of `datetime.fromisoformat` on character lists:
`YYYY-MM-DD[<sep>HH[:MM[:SS[.ffffff]]][±HH:MM[:SS]]]`. -/
def fromisoformatCh (cs : List Char) : Option PyDatetime :=
  match read4 cs with
  | none => none
  | some (y, cs) =>
    match expectCh '-' cs with
    | none => none
    | some cs =>
      match read2 cs with
      | none => none
      | some (mo, cs) =>
        match expectCh '-' cs with
        | none => none
        | some cs =>
          match read2 cs with
          | none => none
          | some (d, cs) =>
            match cs with
            | [] => buildDT y mo d 0 0 0 0 none
            | _sep :: cs => readTimePart y mo d cs

/-- The characters of the `"+00:00"` literal. -/
def plusZeroOffset : List Char := ['+', '0', '0', ':', '0', '0']

/-- Model of `astimezone(timezone.utc)`: shift the civil fields by the
negated UTC offset and mark the result as UTC.  A naive input is stamped
UTC unchanged (that branch is unreachable from `timeConvert`, which makes
the datetime aware first). -/
def astimezoneUTC (t : PyDatetime) : PyDatetime :=
  match t.utcOffMicros with
  | none => { t with utcOffMicros := some 0 }
  | some off => { dtShiftMicros t (-off) with utcOffMicros := some 0 }

/-- Model of `timeConvert` (solarWeather.py lines 209-216): replace a
trailing `Z` with `+00:00`, parse with `fromisoformat`, stamp a naive
result as UTC, and convert to UTC. -/
def timeConvert (s : String) : Option PyDatetime :=
  let cs := s.data
  let cs2 := if cs.getLast? = some 'Z' then cs.dropLast ++ plusZeroOffset else cs
  match fromisoformatCh cs2 with
  | none => none
  | some dt =>
    let dt2 := if dt.utcOffMicros = none then { dt with utcOffMicros := some 0 } else dt
    some (astimezoneUTC dt2)

/-! ### Python float formatting (`:.2f`, `str()` of the scale constants) -/

/-- Round a rational to the nearest integer, ties to even (the rounding
Python's `format(x, '.2f')` applies at the last kept digit). -/
def roundHalfEven (q : ℚ) : Int :=
  let n := ⌊q⌋
  let fr := q - n
  if fr < 1 / 2 then n
  else if 1 / 2 < fr then n + 1
  else if n % 2 = 0 then n else n + 1

/-- Render a non-negative number of hundredths as `<int>.<2 digits>`. -/
def fmt2nn (n : Nat) : String :=
  toString (n / 100) ++ "." ++ String.mk (pad2ch (n % 100))

/-- Model of Python `f"{x:.2f}"`. -/
def fmt2 (q : ℚ) : String :=
  let n := roundHalfEven (q * 100)
  if n < 0 then "-" ++ fmt2nn (-n).toNat else fmt2nn n.toNat

/-- Python `str()` of the five flare-scale float constants (`str(1e-08)`
is `"1e-08"`, ..., `str(0.0001)` is `"0.0001"`); these are the only
values the program interpolates with `f"{offset}..."`. -/
def pyReprOffset (q : ℚ) : String :=
  if q = 1 / 100000000 then "1e-08"
  else if q = 1 / 10000000 then "1e-07"
  else if q = 1 / 1000000 then "1e-06"
  else if q = 1 / 100000 then "1e-05"
  else if q = 1 / 10000 then "0.0001"
  else "0.0"

/-! ### Flare scale and classifier (solarWeather.py lines 61-100) -/

/-- The `FLARE_OFFSETS` table: class letters with their lower bounds. -/
def FLARE_OFFSETS : List (String × ℚ) :=
  [("A", 1 / 100000000), ("B", 1 / 10000000), ("C", 1 / 1000000),
   ("M", 1 / 100000), ("X", 1 / 10000)]

/-- `STRONG_FLARE = FLARE_OFFSETS[4][1]`. -/
def STRONG_FLARE : ℚ := (FLARE_OFFSETS.get ⟨4, by decide⟩).2

/-- Model of `is_x_flare` (line 73): `flux >= STRONG_FLARE`. -/
def is_x_flare (flux : ℚ) : Bool := decide (STRONG_FLARE ≤ flux)

/-- The `for flare, offset in FLARE_OFFSETS` loop of `flare_class`
(lines 96-98): return on the first table row whose offset the flux meets,
interpolating the offset itself (`f"{offset}..."`); fall through to the
`A`-label fallback (line 100). -/
def flareClassScan (flux : ℚ) : List (String × ℚ) → String
  | [] => "A" ++ fmt2 (flux / (1 / 100000000))
  | (_flare, off) :: rest =>
    if off ≤ flux then pyReprOffset off ++ fmt2 (flux / off)
    else flareClassScan flux rest

/-- Model of `flare_class` (lines 92-100). -/
def flare_class (flux : ℚ) : String :=
  if flux ≤ 0 then "A0.00" else flareClassScan flux FLARE_OFFSETS

/-! ### Samples and the alert (lines 76-89, 104-109) -/

/-- The `xrayEntry` dataclass. -/
structure xrayEntry where
  time_utc : PyDatetime
  flux : ℚ
  observed_flux : ℚ
deriving DecidableEq, Repr

/-- Sort/comparison key of a sample: the instant of its timestamp
(Python compares the aware `time_utc` datetimes by instant). -/
def entryKey (e : xrayEntry) : Int := dtInstant e.time_utc

/-- Model of `max(entries, key=lambda e: e.flux)`: Python `max` keeps the
earliest element on ties, replacing only on strictly greater keys. -/
def strongestFrom (e : xrayEntry) (es : List xrayEntry) : xrayEntry :=
  es.foldl (fun a b => if a.flux < b.flux then b else a) e

/-- Whether `x_flare_Alert` (lines 76-89) reaches its alert action: it
returns early on an empty list, finds the strongest entry, and acts iff
that entry's flux is an X flare. -/
def x_flare_Alert_fires : List xrayEntry → Bool
  | [] => false
  | e :: es => is_x_flare (strongestFrom e es).flux

/-- Maximum flux of a sample list (`max(i.flux for i in entries)`),
defaulting to 0 on the empty list, where the Python expression raises. -/
def maxFluxD : List xrayEntry → ℚ
  | [] => 0
  | e :: es => es.foldl (fun m b => max m b.flux) e.flux

/-! ### Raw records and the validator/mapper (lines 135-159) -/

/-- A loosely-typed JSON field value as the feed delivers it. -/
inductive JValue where
  | str (s : String)
  | num (q : ℚ)
  | null
deriving DecidableEq

/-- A raw feed record: a JSON object, modelled as a key-value list. -/
abbrev RawRecord := List (String × JValue)

/-- Dictionary lookup (`i[k]` / `i.get(k)`). -/
def lookupKey (r : RawRecord) (k : String) : Option JValue :=
  (r.find? (fun p => p.1 = k)).map (fun p => p.2)

/-- Whitespace test for Python `strip()` / `float()` trimming. -/
def isWS (c : Char) : Bool := c = ' ' ∨ c = '\t' ∨ c = '\n' ∨ c = '\r'

/-- Strip leading and trailing whitespace. -/
def trimWS (cs : List Char) : List Char :=
  ((cs.dropWhile isWS).reverse.dropWhile isWS).reverse

/-- Model of Python `str.strip()`. -/
def pyStripStr (s : String) : String := String.mk (trimWS s.data)

/-- Decimal rendering standing in for Python `str()` of a float (exact
shortest-repr formatting is not reproduced; no pipeline behaviour depends
on it, since such a string can never parse as an ISO timestamp). -/
def pyNumStr (q : ℚ) : String :=
  toString q.num ++ (if q.den = 1 then ".0" else "/" ++ toString q.den)

/-- Model of Python `str()` on a field value. -/
def pyStr : JValue → String
  | .str s => s
  | .num q => pyNumStr q
  | .null => "None"

/-- Optional sign at the front of a float literal. -/
def readSign : List Char → Int × List Char
  | '+' :: r => (1, r)
  | '-' :: r => (-1, r)
  | r => (1, r)

/-- Integer-and-fraction part of a float literal (`123`, `1.5`, `.5`, `1.`). -/
def readMantissa (cs : List Char) : Option (ℚ × List Char) :=
  let ip := readDigitsAux cs
  match ip.2 with
  | '.' :: r =>
    let fp := readDigitsAux r
    if ip.1.isEmpty ∧ fp.1.isEmpty then none
    else some ((natFromDigits ip.1 : ℚ) + (natFromDigits fp.1 : ℚ) / (10 : ℚ) ^ fp.1.length, fp.2)
  | _ =>
    if ip.1.isEmpty then none
    else some ((natFromDigits ip.1 : ℚ), ip.2)

/-- Optional exponent part of a float literal (`e-6`, `E+2`). -/
def readExpPart (cs : List Char) : Option (Int × List Char) :=
  match cs with
  | c :: r =>
    if c = 'e' ∨ c = 'E' then
      let sp := readSign r
      let ed := readDigitsAux sp.2
      if ed.1.isEmpty then none else some (sp.1 * (natFromDigits ed.1 : Int), ed.2)
    else some (0, c :: r)
  | [] => some (0, [])

/-- Model of Python `float()` on a string: trimmed sign-mantissa-exponent
(the non-finite literals `inf`/`nan`, having no rational value, are not
representable and parse as failures). -/
def pyFloatOfStr? (s : String) : Option ℚ :=
  let sp := readSign (trimWS s.data)
  match readMantissa sp.2 with
  | none => none
  | some (mant, cs) =>
    match readExpPart cs with
    | none => none
    | some (ex, cs) =>
      if cs.isEmpty then some ((sp.1 : ℚ) * mant * (10 : ℚ) ^ ex) else none

/-- Model of Python `float()` on a field value: numbers pass through,
strings are parsed, anything else (e.g. `None`) raises. -/
def pyFloat? : JValue → Option ℚ
  | .num q => some q
  | .str s => pyFloatOfStr? s
  | .null => none

/-- Model of `filter_data` (lines 135-137): keep records whose stripped
`energy` field equals the requested band exactly. -/
def filter_data (rows : List RawRecord) (energy : String) : List RawRecord :=
  rows.filter (fun i => pyStripStr (pyStr ((lookupKey i "energy").getD (JValue.str ""))) == energy)

/-- The `try` body of the `split_entries` loop (lines 148-156): read
`i["time_tag"]` through `timeConvert`, `float(i["flux"])`, then
`float(i.get("observed_flux", flux))`; any failure skips the record. -/
def parseRecord (i : RawRecord) : Option xrayEntry :=
  match lookupKey i "time_tag" with
  | none => none
  | some tv =>
    match timeConvert (pyStr tv) with
    | none => none
    | some time =>
      match lookupKey i "flux" with
      | none => none
      | some fv =>
        match pyFloat? fv with
        | none => none
        | some flux =>
          match pyFloat? ((lookupKey i "observed_flux").getD (JValue.num flux)) with
          | none => none
          | some obs => some ⟨time, flux, obs⟩

/-- Insert a sample into an already-processed suffix, before the first
element of larger-or-equal key it is not already behind; together with
`sortEntries` this is a stable sort by `time_utc`, modelling the stable
Python `entries.sort(key=lambda i: i.time_utc)` (line 158). -/
def insEntry (e : xrayEntry) : List xrayEntry → List xrayEntry
  | [] => [e]
  | f :: fs => if entryKey e ≤ entryKey f then e :: f :: fs else f :: insEntry e fs

/-- Stable insertion sort by timestamp. -/
def sortEntries : List xrayEntry → List xrayEntry
  | [] => []
  | e :: es => insEntry e (sortEntries es)

/-- Model of `split_entries` (lines 145-159).  The Python signature
declares `time_key="time_tag"` and `flux_key="flux"` parameters, but the
body reads the literal keys `"time_tag"` and `"flux"`, so both
parameters are dead. -/
def split_entries (data : List RawRecord) (time_key : String) (flux_key : String) : List xrayEntry :=
  sortEntries (data.filterMap parseRecord)

/-! ### Window selector (lines 162-171) -/

/-- Microseconds of `timedelta(hours=h)` for a float argument (rounded
half-even to whole microseconds, as `timedelta` normalization does). -/
def hoursToMicros (h : ℚ) : Int := roundHalfEven (h * 3600000000)

/-- `end - timedelta(hours=hours)`. -/
def dtSubHours (t : PyDatetime) (h : ℚ) : PyDatetime :=
  dtShiftMicros t (-(hoursToMicros h))

/-- Model of `getLastNHoras` (lines 162-171): empty in, empty out;
otherwise keep the samples between `entries[-1].time_utc - hours` and
`entries[-1].time_utc`, both bounds included. -/
def getLastNHoras (entries : List xrayEntry) (hours : ℚ) : List xrayEntry :=
  match entries with
  | [] => []
  | e :: es =>
    let endT := (e :: es).getLast (List.cons_ne_nil e es)
    let startT := dtSubHours endT.time_utc hours
    (e :: es).filter (fun i =>
      decide (dtInstant startT ≤ dtInstant i.time_utc) &&
      decide (dtInstant i.time_utc ≤ dtInstant endT.time_utc))

/-! ### Summarizer (lines 174-188) -/

/-- The dictionary `summary` returns, field for field (the `max_flux`
entry of the Python dict holds `flare_class(max_flux)`, a label string,
exactly as the source computes it). -/
structure SummaryOut where
  start_time_utc : String
  end_time_utc : String
  node_count : Nat
  current_flux : ℚ
  current_class : String
  max_flux : String
  max_class : String
deriving DecidableEq, Repr

/-- Model of `summary` (lines 174-188): raises `ValueError` on an empty
list, otherwise aggregates. -/
def summary : List xrayEntry → Except String SummaryOut
  | [] => .error "No entries available."
  | e :: es =>
    let lastE := (e :: es).getLast (List.cons_ne_nil e es)
    let curr := lastE.flux
    let max_flux := maxFluxD (e :: es)
    .ok { start_time_utc := isoformat e.time_utc,
          end_time_utc := isoformat lastE.time_utc,
          node_count := (e :: es).length,
          current_flux := curr,
          current_class := flare_class curr,
          max_flux := flare_class max_flux,
          max_class := flare_class max_flux }

/-! ### Helper lemmas -/

/-- Rounding an integer-valued rational is the identity. -/
theorem roundHalfEven_intCast (m : Int) : roundHalfEven ((m : ℚ)) = m := by
  unfold roundHalfEven
  simp only [Int.floor_intCast, sub_self]
  norm_num

/-- Evaluate `fmt2` when the scaled argument is a known non-negative integer. -/
theorem fmt2_eq_fmt2nn (q : ℚ) (m : Int) (h0 : 0 ≤ m) (hq : q * 100 = (m : ℚ)) :
    fmt2 q = fmt2nn m.toNat := by
  unfold fmt2
  rw [hq, roundHalfEven_intCast, if_neg (by omega)]

/-- The strongest entry found by the fold carries the maximum flux. -/
theorem strongestFrom_flux (e : xrayEntry) (es : List xrayEntry) :
    (strongestFrom e es).flux = maxFluxD (e :: es) := by
  unfold strongestFrom maxFluxD
  induction es generalizing e with
  | nil => rfl
  | cons b bs ih =>
    simp only [List.foldl_cons]
    rw [ih]
    by_cases h : e.flux < b.flux
    · rw [if_pos h, max_eq_right (le_of_lt h)]
    · rw [if_neg h, max_eq_left (not_lt.1 h)]

/-- `STRONG_FLARE` is the X-class lower bound. -/
theorem STRONG_FLARE_eq : STRONG_FLARE = 1 / 10000 := rfl

/-- The alert condition, spelled out. -/
theorem x_flare_fires_iff (es : List xrayEntry) :
    x_flare_Alert_fires es = true ↔ es ≠ [] ∧ 1 / 10000 ≤ maxFluxD es := by
  cases es with
  | nil => simp [x_flare_Alert_fires]
  | cons e es =>
    simp only [x_flare_Alert_fires, is_x_flare, strongestFrom_flux, STRONG_FLARE_eq,
      decide_eq_true_eq]
    exact ⟨fun h => ⟨List.cons_ne_nil e es, h⟩, fun h => h.2⟩

/-! ### Claim theorems -/

/-- Claim C1 (code bug): the claim says `classify` scans from strongest to
weakest threshold and returns the class letter, with `classify(1e-4) =
"X1.00"` and `classify(5.5e-6) = "C5.50"`.  The code instead iterates
`FLARE_OFFSETS` from the weakest threshold up and interpolates the
numeric offset rather than the letter, so every flux at least `1e-8`
is labelled against the `A` bound: `flare_class(1e-4)` is
`"1e-0810000.00"`, not `"X1.00"`, and `flare_class(5.5e-6)` is
`"1e-08550.00"`, not `"C5.50"`. -/
theorem flare_class_scan_bug :
    flare_class (1 / 10000) = "1e-0810000.00" ∧ flare_class (1 / 10000) ≠ "X1.00" ∧
    flare_class (55 / 10000000) = "1e-08550.00" ∧ flare_class (55 / 10000000) ≠ "C5.50" := by
  have h1 : flare_class (1 / 10000) = "1e-0810000.00" := by
    rw [flare_class, if_neg (by norm_num), FLARE_OFFSETS, flareClassScan,
      if_pos (by norm_num : (1 : ℚ) / 100000000 ≤ 1 / 10000),
      fmt2_eq_fmt2nn _ 1000000 (by omega) (by norm_num), pyReprOffset, if_pos rfl]
    decide
  have h2 : flare_class (55 / 10000000) = "1e-08550.00" := by
    rw [flare_class, if_neg (by norm_num), FLARE_OFFSETS, flareClassScan,
      if_pos (by norm_num : (1 : ℚ) / 100000000 ≤ 55 / 10000000),
      fmt2_eq_fmt2nn _ 55000 (by omega) (by norm_num), pyReprOffset, if_pos rfl]
    decide
  refine ⟨h1, ?_, h2, ?_⟩
  · rw [h1]; decide
  · rw [h2]; decide

/-- Claim C7 (confirmed): for flux at or below zero `flare_class` returns
the `"A0.00"` sentinel; for positive flux strictly below the `1e-8`
A-threshold none of the scan conditions fires and the fallback returns
`"A"` followed by `flux / 1e-8` to two decimals; in particular
`flare_class(9.99e-9) = "A1.00"`. -/
theorem flare_class_floor_spec :
    (∀ flux : ℚ, flux ≤ 0 → flare_class flux = "A0.00") ∧
    (∀ flux : ℚ, 0 < flux → flux < 1 / 100000000 →
      flare_class flux = "A" ++ fmt2 (flux / (1 / 100000000))) ∧
    flare_class (999 / 100000000000) = "A1.00" := by
  have hmain : ∀ flux : ℚ, 0 < flux → flux < 1 / 100000000 →
      flare_class flux = "A" ++ fmt2 (flux / (1 / 100000000)) := by
    intro flux h0 hlt
    rw [flare_class, if_neg (not_le.2 h0), FLARE_OFFSETS]
    rw [flareClassScan, if_neg (not_le.2 hlt)]
    rw [flareClassScan, if_neg (not_le.2 (by linarith))]
    rw [flareClassScan, if_neg (not_le.2 (by linarith))]
    rw [flareClassScan, if_neg (not_le.2 (by linarith))]
    rw [flareClassScan, if_neg (not_le.2 (by linarith))]
    rw [flareClassScan]
  refine ⟨fun flux h => by rw [flare_class, if_pos h], hmain, ?_⟩
  rw [hmain (999 / 100000000000) (by norm_num) (by norm_num)]
  have : ((999 : ℚ) / 100000000000) / (1 / 100000000) = 999 / 1000 := by norm_num
  rw [this]
  have hrnd : roundHalfEven ((999 : ℚ) / 1000 * 100) = 100 := by
    unfold roundHalfEven
    norm_num
  unfold fmt2
  rw [hrnd, if_neg (by omega)]
  decide

/-- Claim C7 witness: the theorem applied at `flux = -1` and at
`flux = 5e-9`. -/
theorem flare_class_floor_spec_witness :
    flare_class (-1) = "A0.00" ∧
    flare_class (1 / 200000000) = "A" ++ fmt2 ((1 / 200000000) / (1 / 100000000)) :=
  ⟨flare_class_floor_spec.1 (-1) (by norm_num),
   flare_class_floor_spec.2.1 (1 / 200000000) (by norm_num) (by norm_num)⟩

/-- Claim C6 (confirmed): the alert fires iff the slice is non-empty and
its maximum flux reaches the X threshold `1e-4`; the empty slice never
fires, and a slice of maximum flux `2e-4` always fires. -/
theorem x_flare_Alert_spec :
    (∀ es : List xrayEntry, x_flare_Alert_fires es = true ↔
      es ≠ [] ∧ 1 / 10000 ≤ maxFluxD es) ∧
    x_flare_Alert_fires [] = false ∧
    (∀ es : List xrayEntry, es ≠ [] → maxFluxD es = 2 / 10000 →
      x_flare_Alert_fires es = true) :=
  ⟨x_flare_fires_iff, rfl,
   fun es hne hmax => (x_flare_fires_iff es).2 ⟨hne, by rw [hmax]; norm_num⟩⟩

/-- A fixed timestamp used by concrete witnesses. -/
def sampleDT : PyDatetime := ⟨2026, 1, 17, 12, 0, 0, 0, some 0⟩

/-- Claim C6 witness: a singleton slice of flux `2e-4` fires the alert. -/
theorem x_flare_Alert_spec_witness :
    x_flare_Alert_fires [⟨sampleDT, 2 / 10000, 2 / 10000⟩] = true :=
  x_flare_Alert_spec.2.2 [⟨sampleDT, 2 / 10000, 2 / 10000⟩] (by simp) rfl

/-- Claim C10 (confirmed): `split_entries` reads the hardcoded keys
`"time_tag"` and `"flux"`; its `time_key` and `flux_key` parameters do
not influence the result. -/
theorem split_entries_keys_ignored :
    ∀ (data : List RawRecord) (tk fk : String),
      split_entries data tk fk = split_entries data "time_tag" "flux" :=
  fun _ _ _ => rfl

/-- Claim C8 (confirmed): `summary` fails, surfacing the error to the
caller, exactly on the empty sample list. -/
theorem summary_empty_error_iff :
    ∀ es : List xrayEntry, summary es = Except.error "No entries available." ↔ es = [] := by
  intro es
  cases es with
  | nil => simp [summary]
  | cons e es => simp [summary]

/-- Claim C8 witness: the theorem instantiated at the empty list. -/
theorem summary_empty_error_iff_witness :
    summary ([] : List xrayEntry) = Except.error "No entries available." :=
  (summary_empty_error_iff []).mpr rfl

/-- Membership through `insEntry`. -/
theorem mem_insEntry (x e : xrayEntry) (l : List xrayEntry) :
    x ∈ insEntry e l ↔ x = e ∨ x ∈ l := by
  induction l with
  | nil => simp [insEntry]
  | cons f fs ih =>
    unfold insEntry
    by_cases h : entryKey e ≤ entryKey f
    · rw [if_pos h]; simp
    · rw [if_neg h]; simp [ih]; tauto

/-- `insEntry` preserves sortedness by `entryKey`. -/
theorem sorted_insEntry (e : xrayEntry) (l : List xrayEntry)
    (h : l.Sorted (fun a b => entryKey a ≤ entryKey b)) :
    (insEntry e l).Sorted (fun a b => entryKey a ≤ entryKey b) := by
  induction l with
  | nil => simp [insEntry]
  | cons f fs ih =>
    rw [List.sorted_cons] at h
    unfold insEntry
    by_cases hef : entryKey e ≤ entryKey f
    · rw [if_pos hef, List.sorted_cons]
      refine ⟨fun b hb => ?_, ?_⟩
      · rcases List.mem_cons.1 hb with rfl | hb
        · exact hef
        · exact le_trans hef (h.1 b hb)
      · rw [List.sorted_cons]; exact h
    · rw [if_neg hef, List.sorted_cons]
      refine ⟨fun b hb => ?_, ih h.2⟩
      rcases (mem_insEntry b e fs).1 hb with rfl | hb
      · exact le_of_lt (not_le.1 hef)
      · exact h.1 b hb

/-- The whole sort is sorted by `entryKey`. -/
theorem sorted_sortEntries (l : List xrayEntry) :
    (sortEntries l).Sorted (fun a b => entryKey a ≤ entryKey b) := by
  induction l with
  | nil => simp [sortEntries]
  | cons e es ih => exact sorted_insEntry e _ ih

/-- Filtering one timestamp class through `insEntry`: the new element
lands behind every earlier element of its own key. -/
theorem filter_insEntry (e : xrayEntry) (l : List xrayEntry) (k : Int) :
    (insEntry e l).filter (fun x => decide (entryKey x = k)) =
      if entryKey e = k then e :: l.filter (fun x => decide (entryKey x = k))
      else l.filter (fun x => decide (entryKey x = k)) := by
  induction l with
  | nil => by_cases h : entryKey e = k <;> simp [insEntry, List.filter, h]
  | cons f fs ih =>
    unfold insEntry
    by_cases hef : entryKey e ≤ entryKey f
    · rw [if_pos hef]
      by_cases h : entryKey e = k <;> simp [List.filter_cons, h]
    · rw [if_neg hef]
      have hfe : entryKey f < entryKey e := not_le.1 hef
      by_cases h : entryKey e = k
      · have hf : ¬(entryKey f = k) := by rw [← h]; exact ne_of_lt hfe
        simp [List.filter_cons, hf, ih, h]
      · simp [List.filter_cons, ih, h]

/-- The sort keeps each timestamp class in input order. -/
theorem filter_sortEntries (l : List xrayEntry) (k : Int) :
    (sortEntries l).filter (fun x => decide (entryKey x = k)) =
      l.filter (fun x => decide (entryKey x = k)) := by
  induction l with
  | nil => rfl
  | cons e es ih =>
    rw [show sortEntries (e :: es) = insEntry e (sortEntries es) from rfl, filter_insEntry]
    by_cases h : entryKey e = k
    · rw [if_pos h, ih, List.filter_cons, if_pos (by simp [h])]
    · rw [if_neg h, ih, List.filter_cons, if_neg (by simp [h])]

/-- Claim C5 (confirmed): on every input `split_entries` returns its
parsed samples sorted non-decreasing by timestamp, and samples of equal
timestamp keep the relative order the records had in the input. -/
theorem split_entries_sorted_stable :
    ∀ data : List RawRecord,
      (split_entries data "time_tag" "flux").Sorted (fun a b => entryKey a ≤ entryKey b) ∧
      ∀ k : Int,
        (split_entries data "time_tag" "flux").filter (fun x => decide (entryKey x = k)) =
          (data.filterMap parseRecord).filter (fun x => decide (entryKey x = k)) :=
  fun data => ⟨sorted_sortEntries _, fun k => filter_sortEntries _ k⟩

/-- Claim C4 (confirmed): on a non-empty input `getLastNHoras` returns
exactly the samples whose instant lies in the closed interval between
`anchor - hours` and `anchor`, where `anchor` is the timestamp of the
last sample of the sequence (not the wall clock); on the empty input it
returns the empty list. -/
theorem getLastNHoras_window :
    (∀ (e : xrayEntry) (es : List xrayEntry) (hours : ℚ),
      getLastNHoras (e :: es) hours =
        (e :: es).filter (fun i =>
          decide (dtInstant (dtSubHours ((e :: es).getLast (List.cons_ne_nil e es)).time_utc hours) ≤
            dtInstant i.time_utc) &&
          decide (dtInstant i.time_utc ≤
            dtInstant ((e :: es).getLast (List.cons_ne_nil e es)).time_utc))) ∧
    (∀ hours : ℚ, getLastNHoras [] hours = []) :=
  ⟨fun _ _ _ => rfl, fun _ => rfl⟩

/-- Claim C2 (code bug): the claim says the summary's `max_flux` field is
the maximum flux value observed (equal to `current_flux` on a singleton);
the code stores `flare_class(max_flux)` there — a label string identical
to `max_class` — not the number.  Evaluated on a singleton slice of flux
`2e-6`. -/
theorem summary_max_flux_is_label :
    summary [⟨sampleDT, 2 / 1000000, 2 / 1000000⟩] =
      Except.ok { start_time_utc := "2026-01-17T12:00:00+00:00",
                  end_time_utc := "2026-01-17T12:00:00+00:00",
                  node_count := 1,
                  current_flux := 2 / 1000000,
                  current_class := "1e-08200.00",
                  max_flux := "1e-08200.00",
                  max_class := "1e-08200.00" } := by
  have hc : flare_class (2 / 1000000) = "1e-08200.00" := by
    rw [flare_class, if_neg (by norm_num), FLARE_OFFSETS, flareClassScan,
      if_pos (by norm_num : (1 : ℚ) / 100000000 ≤ 2 / 1000000),
      fmt2_eq_fmt2nn _ 20000 (by omega) (by norm_num), pyReprOffset, if_pos rfl]
    decide
  have hiso : isoformat sampleDT = "2026-01-17T12:00:00+00:00" := by decide
  rw [← hc, ← hiso]
  rfl

/-- A record whose timestamp and flux parse but whose `observed_flux`
field is present and unreadable. -/
def badRec : RawRecord :=
  [("time_tag", JValue.str "2026-01-17T12:00:00Z"),
   ("flux", JValue.num (1 / 1000000)),
   ("observed_flux", JValue.null)]

/-- Claim C3 counterexample: `badRec`'s timestamp parses and its flux
parses, yet `split_entries` drops the record entirely because the
present-but-unreadable `observed_flux` raises inside the `try` block —
the record is skipped, not defaulted. -/
theorem split_entries_skips_unreadable_observed :
    (timeConvert (pyStr (JValue.str "2026-01-17T12:00:00Z"))).isSome = true ∧
    pyFloat? (JValue.num (1 / 1000000)) = some (1 / 1000000) ∧
    split_entries [badRec] "time_tag" "flux" = [] := by
  exact ⟨by decide, rfl, rfl⟩

/-- Claim C3 as amended: when timestamp and primary flux parse, the
sample's `observed_flux` is the parsed secondary value when that field is
present and readable, and defaults to the primary flux when the field is
absent; but when the field is present and unreadable the whole record is
skipped. -/
theorem split_entries_observed_flux :
    ∀ (r : RawRecord) (tv fv : JValue) (t : PyDatetime) (q : ℚ),
      lookupKey r "time_tag" = some tv → timeConvert (pyStr tv) = some t →
      lookupKey r "flux" = some fv → pyFloat? fv = some q →
      ((lookupKey r "observed_flux" = none → parseRecord r = some ⟨t, q, q⟩) ∧
       (∀ (ov : JValue) (w : ℚ), lookupKey r "observed_flux" = some ov →
          pyFloat? ov = some w → parseRecord r = some ⟨t, q, w⟩) ∧
       (∀ ov : JValue, lookupKey r "observed_flux" = some ov →
          pyFloat? ov = none → parseRecord r = none)) := by
  intro r tv fv t q h1 h2 h3 h4
  refine ⟨?_, ?_, ?_⟩
  · intro h5
    simp only [parseRecord, h1, h2, h3, h4, h5, Option.getD_none]
    rfl
  · intro ov w h5 h6
    simp only [parseRecord, h1, h2, h3, h4, h5, Option.getD_some, h6]
  · intro ov h5 h6
    simp only [parseRecord, h1, h2, h3, h4, h5, Option.getD_some, h6]

/-- A record with timestamp and flux but no `observed_flux` field. -/
def goodRec : RawRecord :=
  [("time_tag", JValue.str "2026-01-17T12:00:00Z"), ("flux", JValue.num (1 / 1000000))]

/-- Claim C3 witness: the amended theorem applied to `goodRec` — the
absent secondary flux defaults to the primary flux. -/
theorem split_entries_observed_flux_witness :
    parseRecord goodRec = some ⟨sampleDT, 1 / 1000000, 1 / 1000000⟩ :=
  (split_entries_observed_flux goodRec (JValue.str "2026-01-17T12:00:00Z")
    (JValue.num (1 / 1000000)) sampleDT (1 / 1000000) rfl (by decide) rfl rfl).1 rfl

/-! ### Round-trip lemmas for the time parser -/

/-- Reading back a rendered digit. -/
theorem digitVal?_digitChar (d : Nat) (h : d < 10) : digitVal? (digitChar d) = some d := by
  interval_cases d <;> decide

/-- `read2` undoes `pad2ch`. -/
theorem read2_pad2 (n : Nat) (h : n ≤ 99) (r : List Char) :
    read2 (pad2ch n ++ r) = some (n, r) := by
  have h1 : n / 10 < 10 := by omega
  have h2 : n % 10 < 10 := by omega
  simp [pad2ch, read2, digitVal?_digitChar _ h1, digitVal?_digitChar _ h2]
  omega

/-- `read4` undoes `pad4ch`. -/
theorem read4_pad4 (n : Nat) (h : n ≤ 9999) (r : List Char) :
    read4 (pad4ch n ++ r) = some (n, r) := by
  have h1 : n / 1000 < 10 := by omega
  have h2 : n / 100 % 10 < 10 := by omega
  have h3 : n / 10 % 10 < 10 := by omega
  have h4 : n % 10 < 10 := by omega
  simp [pad4ch, read4, digitVal?_digitChar _ h1, digitVal?_digitChar _ h2,
    digitVal?_digitChar _ h3, digitVal?_digitChar _ h4]
  omega

/-- Consuming the character just rendered. -/
theorem expectCh_self (c : Char) (r : List Char) : expectCh c (c :: r) = some r := by
  simp [expectCh]

/-- The greedy digit reader consumes exactly a rendered six-digit block
when a non-digit follows. -/
theorem readDigitsAux_pad6 (n : Nat) (h : n ≤ 999999) (c : Char) (hc : digitVal? c = none)
    (r : List Char) :
    readDigitsAux (pad6ch n ++ c :: r) =
      ([n / 100000, n / 10000 % 10, n / 1000 % 10, n / 100 % 10, n / 10 % 10, n % 10], c :: r) := by
  have h1 : n / 100000 < 10 := by omega
  have h2 : n / 10000 % 10 < 10 := by omega
  have h3 : n / 1000 % 10 < 10 := by omega
  have h4 : n / 100 % 10 < 10 := by omega
  have h5 : n / 10 % 10 < 10 := by omega
  have h6 : n % 10 < 10 := by omega
  simp [pad6ch, readDigitsAux, digitVal?_digitChar _ h1, digitVal?_digitChar _ h2,
    digitVal?_digitChar _ h3, digitVal?_digitChar _ h4, digitVal?_digitChar _ h5,
    digitVal?_digitChar _ h6, hc]

/-- The fraction reader undoes `pad6ch` when the `"+00:00"` suffix follows. -/
theorem readFracPart_pad6 (n : Nat) (h : n ≤ 999999) :
    readFracPart (pad6ch n ++ plusZeroOffset) = some (n, plusZeroOffset) := by
  have hplus : pad6ch n ++ plusZeroOffset = pad6ch n ++ '+' :: ['0', '0', ':', '0', '0'] := rfl
  rw [readFracPart, hplus, readDigitsAux_pad6 n h '+' rfl]
  simp [natFromDigits]
  exact ⟨by omega, rfl⟩

/-- The rendered offset suffix for UTC is exactly `"+00:00"`. -/
theorem offsetSuffix_zero : offsetSuffix (some 0) = plusZeroOffset := rfl

/-- Parsing the `"+00:00"` tail produces a zero offset. -/
theorem readOffsetEnd_plusZero (y mo d h mi s us : Nat) :
    readOffsetEnd y mo d h mi s us plusZeroOffset = buildDT y mo d h mi s us (some 0) := rfl

/-- A dot is not the plus sign that starts the UTC suffix. -/
theorem expectCh_dot_plusZero : expectCh '.' plusZeroOffset = none := rfl

/-- Appending a block that ends in `'0'` ends in `'0'`. -/
theorem getLast?_zero_append (l m : List Char) (h : m.getLast? = some '0') :
    (l ++ m).getLast? = some '0' := by
  rw [List.getLast?_append, h]
  rfl

/-- Prepending a character to a block that ends in `'0'` ends in `'0'`. -/
theorem getLast?_zero_cons (a : Char) (l : List Char) (h : l.getLast? = some '0') :
    (a :: l).getLast? = some '0' := by
  cases l with
  | nil => exact absurd h (by simp)
  | cons b bs => rw [List.getLast?_cons_cons]; exact h

/-- Every month has at most 31 days. -/
theorem daysInMonth_le (y m : Nat) : daysInMonth y m ≤ 31 := by
  unfold daysInMonth
  split_ifs <;> omega

/-- Shifting a datetime with in-range time fields by zero microseconds is
the identity. -/
theorem dtShiftMicros_zero (y mo d h mi s us : Nat) (off : Option Int)
    (hh : h ≤ 23) (hm : mi ≤ 59) (hs : s ≤ 59) (hu : us ≤ 999999) :
    dtShiftMicros ⟨y, mo, d, h, mi, s, us, off⟩ 0 = ⟨y, mo, d, h, mi, s, us, off⟩ := by
  have hsod : secondsOfDayMicros ⟨y, mo, d, h, mi, s, us, off⟩ =
      (h * 3600 + mi * 60 + s) * 1000000 + us := rfl
  simp only [dtShiftMicros, hsod, add_zero]
  have hlt : ((h * 3600 + mi * 60 + s) * 1000000 + us : Nat) < 86400000000 := by omega
  have hq : (((h * 3600 + mi * 60 + s) * 1000000 + us : Nat) : Int) / 86400000000 = 0 := by omega
  have hr : ((((h * 3600 + mi * 60 + s) * 1000000 + us : Nat) : Int) % 86400000000).toNat =
      (h * 3600 + mi * 60 + s) * 1000000 + us := by omega
  rw [hq, hr]
  simp only [addDaysCivil, le_refl, if_pos, Int.toNat_zero, addDaysFwd, PyDatetime.mk.injEq]
  refine ⟨trivial, trivial, trivial, by omega, by omega, by omega, by omega, trivial⟩

/-- `astimezone(timezone.utc)` on an already-UTC datetime with in-range
time fields is the identity. -/
theorem astimezoneUTC_utc (t : PyDatetime) (ho : t.utcOffMicros = some 0)
    (hh : t.hour ≤ 23) (hm : t.minute ≤ 59) (hs : t.second ≤ 59) (hu : t.usec ≤ 999999) :
    astimezoneUTC t = t := by
  obtain ⟨y, mo, d, h, mi, s, us, off⟩ := t
  simp only at ho hh hm hs hu
  subst ho
  simp only [astimezoneUTC, neg_zero]
  rw [dtShiftMicros_zero y mo d h mi s us (some 0) hh hm hs hu]

/-- The parser undoes the renderer on every valid UTC datetime. -/
theorem fromisoformatCh_isoformatCh (t : PyDatetime) (hv : validDT t = true)
    (ho : t.utcOffMicros = some 0) : fromisoformatCh (isoformatCh t) = some t := by
  obtain ⟨y, mo, d, h, mi, s, us, off⟩ := t
  simp only at ho
  subst ho
  have hb := hv
  simp only [validDT, Bool.and_eq_true, decide_eq_true_eq] at hb
  have hy : y ≤ 9999 := by tauto
  have hmo : mo ≤ 99 := by
    have : mo ≤ 12 := by tauto
    omega
  have hd : d ≤ 99 := by
    have h1 : d ≤ daysInMonth y mo := by tauto
    have h2 := daysInMonth_le y mo
    omega
  have hhr : h ≤ 99 := by
    have : h ≤ 23 := by tauto
    omega
  have hmi : mi ≤ 99 := by
    have : mi ≤ 59 := by tauto
    omega
  have hs : s ≤ 99 := by
    have : s ≤ 59 := by tauto
    omega
  have hus : us ≤ 999999 := by tauto
  by_cases h0 : us = 0
  · subst h0
    simp only [isoformatCh, offsetSuffix_zero, List.append_assoc, List.cons_append, List.nil_append,
      reduceIte, fromisoformatCh, read4_pad4 y hy, expectCh_self,
      read2_pad2 mo hmo, read2_pad2 d hd, readTimePart, read2_pad2 h hhr,
      read2_pad2 mi hmi, read2_pad2 s hs, expectCh_dot_plusZero,
      readOffsetEnd_plusZero, buildDT]
    rw [if_pos hv]
  · simp only [isoformatCh, offsetSuffix_zero, List.append_assoc, List.cons_append, List.nil_append,
      if_neg h0, fromisoformatCh, read4_pad4 y hy, expectCh_self,
      read2_pad2 mo hmo, read2_pad2 d hd, readTimePart, read2_pad2 h hhr,
      read2_pad2 mi hmi, read2_pad2 s hs, readFracPart_pad6 us hus,
      readOffsetEnd_plusZero, buildDT]
    rw [if_pos hv]

/-- A rendered UTC timestamp ends in `'0'` (the offset suffix), never `'Z'`. -/
theorem isoformatCh_getLast (t : PyDatetime) (ho : t.utcOffMicros = some 0) :
    (isoformatCh t).getLast? = some '0' := by
  rw [isoformatCh, ho, offsetSuffix_zero]
  exact getLast?_zero_append _ _ (by decide)

/-- Claim C9 (confirmed): parsing the ISO-8601 string with explicit
offset that the export produces for a UTC-normalized timestamp recovers
the timestamp exactly (`timeConvert` after `isoformat` is the identity on
valid UTC datetimes); and on every string ending in `'Z'` the parser
behaves exactly as on the same string with the `'Z'` replaced by
`"+00:00"`. -/
theorem timeConvert_isoformat_roundtrip :
    (∀ t : PyDatetime, validDT t = true → t.utcOffMicros = some 0 →
      timeConvert (isoformat t) = some t) ∧
    (∀ s : String, s.data.getLast? = some 'Z' →
      timeConvert s = timeConvert (String.mk (s.data.dropLast ++ plusZeroOffset))) := by
  constructor
  · intro t hv ho
    have hb := hv
    simp only [validDT, Bool.and_eq_true, decide_eq_true_eq] at hb
    have hh : t.hour ≤ 23 := by tauto
    have hm : t.minute ≤ 59 := by tauto
    have hs : t.second ≤ 59 := by tauto
    have hu : t.usec ≤ 999999 := by tauto
    have hz : ¬((isoformatCh t).getLast? = some 'Z') := by
      rw [isoformatCh_getLast t ho]
      decide
    simp only [timeConvert, show (isoformat t).data = isoformatCh t from rfl, if_neg hz,
      fromisoformatCh_isoformatCh t hv ho, ho]
    rw [if_neg (show ¬(some (0 : Int) = none) by simp)]
    rw [astimezoneUTC_utc t ho hh hm hs hu]
  · intro s hz
    have h0 : (s.data.dropLast ++ plusZeroOffset).getLast? = some '0' :=
      getLast?_zero_append _ _ (by decide)
    have hz2 : ¬((String.mk (s.data.dropLast ++ plusZeroOffset)).data.getLast? = some 'Z') := by
      rw [show (String.mk (s.data.dropLast ++ plusZeroOffset)).data =
        s.data.dropLast ++ plusZeroOffset from rfl, h0]
      decide
    simp only [timeConvert, if_pos hz, if_neg hz2]

/-- Claim C9 witness: the round trip at a concrete timestamp, and the
`Z`-equivalence at a concrete feed string. -/
theorem timeConvert_isoformat_roundtrip_witness :
    timeConvert (isoformat sampleDT) = some sampleDT ∧
    timeConvert "2026-01-17T12:00:00Z" =
      timeConvert (String.mk (("2026-01-17T12:00:00Z" : String).data.dropLast ++ plusZeroOffset)) :=
  ⟨timeConvert_isoformat_roundtrip.1 sampleDT (by decide) rfl,
   timeConvert_isoformat_roundtrip.2 "2026-01-17T12:00:00Z" (by decide)⟩
